import Mathlib

/-!
Shallow embedding of the FairnessOptimizer repository (Python, pandas,
OR-Tools CP-SAT) and proofs about it.

Modelling conventions:
* A pandas `DataFrame` is a list of named integer columns: a schema
  `cols : List String` plus `rows : List (List Int)`, each row positional
  with respect to `cols`.  All columns are modelled with integer dtype
  (the repository's synthetic-row generator is exercised by the claims
  only on its integer branch).
* Python floats are modelled as `ℚ` (exact arithmetic).
* `np.random` / `random` draws are modelled by an explicit stream of
  naturals, consumed one draw at a time; `[].headD 0 = 0` acts as a
  degenerate seed.
* Fallible Python code (KeyError from a missing column, ValueError from
  `max()`/`min()` on an empty collection) is modelled with `Except`.
-/

namespace FairnessOpt

attribute [local semireducible] Rat.inv Rat.mul Rat.add Rat.sub

/-- A pandas row: one integer value per column, positional. -/
abbrev Row := List Int

/-- A pandas DataFrame with integer columns. -/
structure DataFrame where
  cols : List String
  rows : List Row
deriving DecidableEq

/-- `row[attr]`: positional lookup of a column value in a row
(`0` as an out-of-schema default; claims only use in-schema columns). -/
def DataFrame.cell (df : DataFrame) (r : Row) (a : String) : Int :=
  r.getD (df.cols.indexOf a) 0

/-- `data[attr]`: the column of values of attribute `a`. -/
def colVals (df : DataFrame) (a : String) : List Int :=
  df.rows.map (fun r => df.cell r a)

/-- Python `str.startswith`: the first `len(p)` characters equal `p`. -/
def pyStartsWith (s p : String) : Bool :=
  s.data.take p.data.length == p.data

/-- Worker for `pdUnique`: keep each value not seen before. -/
def pdUniqueAux (seen : List Int) : List Int → List Int
  | [] => []
  | v :: l => if v ∈ seen then pdUniqueAux seen l else v :: pdUniqueAux (v :: seen) l

/-- `pandas.Series.unique()`: distinct values in order of first occurrence. -/
def pdUnique (l : List Int) : List Int :=
  pdUniqueAux [] l

/-- A subgroup: a `frozenset` of (attribute, value) pairs, represented as a
list of pairs (the pair-lists built by the source are duplicate-free). -/
abbrev Combo := List (String × Int)

/-- Cartesian product of value lists, `itertools.product`. -/
def listProd : List (List Int) → List (List Int)
  | [] => [[]]
  | l :: ls => l.flatMap (fun v => (listProd ls).map (fun vs => v :: vs))

/-- `FairnessEvaluator._get_combinations` (cache-miss body), also
`ConstraintGenerator._get_combinations`: all subgroups over the sensitive
attributes — singletons for every observed value, then for every
`k in range(2, len(attrs)+1)` and every size-`k` attribute combination the
product of the attributes' observed value sets. -/
def getCombinations (df : DataFrame) (attrs : List String) : List Combo :=
  (attrs.flatMap fun a => (pdUnique (colVals df a)).map (fun v => [(a, v)]))
    ++ ((List.range' 2 (attrs.length - 1)).flatMap fun k =>
        (List.sublistsLen k attrs).flatMap fun as =>
          (listProd (as.map fun a => pdUnique (colVals df a))).map
            (fun vs => as.zip vs))

/-- `ConstraintGenerator._has_combination`: a row satisfies every
(attribute, value) pair of a subgroup. -/
def hasCombination (df : DataFrame) (r : Row) (c : Combo) : Bool :=
  c.all (fun p => df.cell r p.1 == p.2)

/-- Support of one subgroup: `mask.sum() / total_records`.
(When `total_records = 0` numpy yields NaN rather than raising; that corner
is reachable only through a stale combinations cache on an empty dataset
and is not exercised by any claim; `ℚ` division by zero stands in.) -/
def support (df : DataFrame) (c : Combo) : ℚ :=
  ((df.rows.countP fun r => hasCombination df r c : ℕ) : ℚ) / (df.rows.length : ℚ)

/-- The list of supports of a subgroup universe over a dataset
(`FairnessEvaluator._calculate_supports`). -/
def supportsOf (df : DataFrame) (combos : List Combo) : List ℚ :=
  combos.map (support df)

/-- Python `max` over a nonempty collection (0 as an out-of-domain default;
the empty case raises ValueError and is modelled separately by `Except`). -/
def listMax (l : List ℚ) : ℚ :=
  l.maximum.unbot' 0

/-- Python `min` over a nonempty collection (0 as an out-of-domain default). -/
def listMin (l : List ℚ) : ℚ :=
  l.minimum.untop' 0

/-- Fairness score of a dataset measured against a given subgroup universe:
`1 - (max(supports) - min(supports))`.  Separated from `score` because the
evaluator's combinations cache can make the universe come from a different
dataset than the one being scored. -/
def scoreWith (df : DataFrame) (combos : List Combo) : ℚ :=
  1 - (listMax (supportsOf df combos) - listMin (supportsOf df combos))

/-- `FairnessEvaluator.evaluate` on a fresh evaluator, as a total function:
subgroup universe of the dataset itself, then `1 - (max - min)` of supports. -/
def score (df : DataFrame) (attrs : List String) : ℚ :=
  scoreWith df (getCombinations df attrs)

/-- Python exceptions raised by the evaluator: `ValueError` from `max()` /
`min()` on an empty collection, `KeyError` from indexing a missing column.
`dataValidationError` is the error class named by the specification; the
repository never defines or raises it, the constructor exists so the
specified behaviour can be stated and compared. -/
inductive PyExc where
  | valueError
  | keyError
  | dataValidationError
deriving DecidableEq

instance {ε α : Type} [DecidableEq ε] [DecidableEq α] : DecidableEq (Except ε α) :=
  fun x y =>
  match x, y with
  | .error e, .error f =>
    if h : e = f then .isTrue (by rw [h]) else .isFalse (by intro hh; cases hh; exact h rfl)
  | .error _, .ok _ => .isFalse (by intro hh; cases hh)
  | .ok _, .error _ => .isFalse (by intro hh; cases hh)
  | .ok a, .ok b =>
    if h : a = b then .isTrue (by rw [h]) else .isFalse (by intro hh; cases hh; exact h rfl)

/-- The evaluator's `combinations_cache`: a finite map from the
attribute-list key `tuple(sensitive_attributes)` to the memoized subgroup
universe. -/
abbrev Cache := List (List String × List Combo)

instance : DecidableEq Cache :=
  inferInstanceAs (DecidableEq (List (List String × List Combo)))

instance : DecidableEq (ℚ × Cache) :=
  inferInstanceAs (DecidableEq (ℚ × List (List String × List Combo)))

namespace FairnessEvaluator

/-- `FairnessEvaluator._get_combinations` with its instance cache: on a hit
the memoized universe is returned regardless of the current dataset; on a
miss the universe is computed from the current dataset (a missing column
raises `KeyError`) and stored under the attribute-list key. -/
def getCombinationsCached (cache : Cache) (df : DataFrame) (attrs : List String) :
    Except PyExc (List Combo × Cache) :=
  match cache.lookup attrs with
  | some cs => .ok (cs, cache)
  | none =>
    if attrs.all (fun a => df.cols.contains a) then
      .ok (getCombinations df attrs, (attrs, getCombinations df attrs) :: cache)
    else
      .error .keyError

/-- `FairnessEvaluator._calculate_supports`: `data[attr]` raises `KeyError`
when a subgroup mentions a column absent from the dataset (possible only
through a stale cache). -/
def calculateSupports (df : DataFrame) (combos : List Combo) :
    Except PyExc (List ℚ) :=
  if combos.all (fun c => c.all (fun p => df.cols.contains p.1)) then
    .ok (supportsOf df combos)
  else
    .error .keyError

/-- `FairnessEvaluator.evaluate` with its mutable `combinations_cache` made
explicit: `max`/`min` of an empty support collection raises `ValueError`;
exceptions from the two helpers propagate. -/
def evaluate (cache : Cache) (df : DataFrame) (attrs : List String) :
    Except PyExc (ℚ × Cache) :=
  match getCombinationsCached cache df attrs with
  | .error e => .error e
  | .ok (combos, cache') =>
    match calculateSupports df combos with
    | .error e => .error e
    | .ok [] => .error .valueError
    | .ok sups => .ok (1 - (listMax sups - listMin sups), cache')

end FairnessEvaluator

/-- Python `int()` applied to a nonnegative rational (truncation towards
zero, which on the claims' domain `coefficient ≥ 0` is the floor). -/
def pyInt (q : ℚ) : ℤ :=
  if 0 ≤ q then ⌊q⌋ else ⌈q⌉

/-- `k = int(n * config['coefficient'])`, the cardinality target of
`ConstraintGenerator.generate_constraints`. -/
def kTarget (n : ℕ) (c : ℚ) : ℤ :=
  pyInt ((n : ℚ) * c)

/-- Decoding a CP-SAT boolean assignment into selected row indices:
`[i for i in range(n) if x[i]]`. -/
def selectedOf (sel : List Bool) : List ℕ :=
  (List.range sel.length).filter (fun i => sel.getD i false)

/-- The model's count variable for one subgroup:
`sum(x[i] for i in range(n) if has_combination(data.iloc[i], c))`. -/
def comboCount (df : DataFrame) (sel : List Bool) (c : Combo) : ℕ :=
  ((List.range df.rows.length).filter
    (fun i => sel.getD i false && hasCombination df (df.rows.getD i []) c)).length

/-- Integer maximum of a list (0 on empty; the model never aggregates an
empty count collection in the claims' scope). -/
def listMaxI (l : List ℤ) : ℤ :=
  l.maximum.unbot' 0

/-- Integer minimum of a list (0 on empty). -/
def listMinI (l : List ℤ) : ℤ :=
  l.minimum.untop' 0

/-- The constraint system built by `ConstraintGenerator.generate_constraints`
as a predicate on a boolean assignment and the integer objective variable:
one boolean per row, cardinality `sum(x) == k`, per-subgroup counts in
`[0, k]` equal to the selected-row counts, and the integer-scaled objective
relation `fairness_score * k == 1000000*k - (max_count - min_count)*1000000`
with `fairness_score ∈ [0, 1000000]`. -/
def modelSat (df : DataFrame) (attrs : List String) (c : ℚ)
    (sel : List Bool) (fairness : ℤ) : Prop :=
  sel.length = df.rows.length ∧
  ((selectedOf sel).length : ℤ) = kTarget df.rows.length c ∧
  (∀ combo ∈ getCombinations df attrs,
    (comboCount df sel combo : ℤ) ≤ kTarget df.rows.length c) ∧
  0 ≤ fairness ∧ fairness ≤ 1000000 ∧
  fairness * kTarget df.rows.length c
    = 1000000 * kTarget df.rows.length c
      - (listMaxI ((getCombinations df attrs).map (fun combo => (comboCount df sel combo : ℤ)))
         - listMinI ((getCombinations df attrs).map (fun combo => (comboCount df sel combo : ℤ))))
        * 1000000

instance (df : DataFrame) (attrs : List String) (c : ℚ)
    (sel : List Bool) (fairness : ℤ) :
    Decidable (modelSat df attrs c sel fairness) := by
  unfold modelSat
  infer_instance

/-- A solver `Solution` dict: selected row indices and a fairness score. -/
structure Solution where
  selectedIndices : List ℕ
  fairnessScore : ℚ
deriving DecidableEq

/-- One pseudo-random draw below `n` (`random.randint(0, n - 1)` /
index choice), driven by the explicit stream. -/
def randBelow (s : List ℕ) (n : ℕ) : ℕ × List ℕ :=
  (s.headD 0 % n, s.tail)

/-- `random.sample`: draw `k` distinct elements from a pool, one
stream-driven index choice per draw. -/
def sampleAux : ℕ → List ℕ → List ℕ → List ℕ × List ℕ
  | 0, _, s => ([], s)
  | k + 1, pool, s =>
    let x := pool.getD (s.headD 0 % pool.length) 0
    let r := sampleAux k (pool.erase x) s.tail
    (x :: r.1, r.2)

/-- `random.sample(range(n), k)`. -/
def randomSample (s : List ℕ) (n k : ℕ) : List ℕ × List ℕ :=
  sampleAux k (List.range n) s

namespace ConstraintSolver

/-- Python's `i in c` where `i` is an `int` row index and `c` a frozenset of
`(attribute, value)` tuples: `int == tuple` is always `False` in Python, so
the membership test never succeeds. -/
def pyIntEqPair (_ : ℕ) (_ : String × Int) : Bool :=
  false

/-- Python membership of an integer in a frozenset of pairs. -/
def pyIntInCombo (i : ℕ) (c : Combo) : Bool :=
  c.any (pyIntEqPair i)

/-- `ConstraintSolver._calculate_fairness`, verbatim from the source:
`selected_counts = {c: sum(1 for i in selected_indices if i in c) for c in count}`
then `1 - (max_count - min_count) / len(selected_indices)`.  The membership
test is the Python `i in c` above. -/
def calculateFairness (selected : List ℕ) (countKeys : List Combo) : ℚ :=
  let selectedCounts := countKeys.map (fun c => (selected.countP (fun i => pyIntInCombo i c) : ℤ))
  1 - ((listMaxI selectedCounts - listMinI selectedCounts : ℤ) : ℚ) / (selected.length : ℚ)

/-- One trial of the hill-climb in
`ConstraintSolver._generate_improved_solution`: draw a row index; if it is
already selected nothing happens; otherwise draw a position
(`random.randint(0, selected_size - 1)`; the selection's length equals the
`selected_size` constant throughout, since `new_indices[j] = i` preserves
length), tentatively replace, and accept only on strict improvement of the
measure. -/
def hillClimbStep (dataSize : ℕ) (countKeys : List Combo)
    (st : List ℕ × ℚ × List ℕ) : List ℕ × ℚ × List ℕ :=
  let selected := st.1
  let fairness := st.2.1
  let i := (randBelow st.2.2 dataSize).1
  let s₁ := (randBelow st.2.2 dataSize).2
  if i ∈ selected then (selected, fairness, s₁)
  else
    let j := (randBelow s₁ selected.length).1
    let s₂ := (randBelow s₁ selected.length).2
    let newIndices := selected.set j i
    let newFairness := calculateFairness newIndices countKeys
    if fairness < newFairness then (newIndices, newFairness, s₂)
    else (selected, fairness, s₂)

/-- The fixed 1000-trial budget of the hill-climb. -/
def hillClimbIter (trials : ℕ) (dataSize : ℕ) (countKeys : List Combo)
    (st : List ℕ × ℚ × List ℕ) : List ℕ × ℚ × List ℕ :=
  match trials with
  | 0 => st
  | t + 1 => hillClimbIter t dataSize countKeys (hillClimbStep dataSize countKeys st)

/-- `ConstraintSolver._generate_improved_solution`: a random selection of
`min(int(data_size * coefficient), data_size)` distinct indices; if the
model's per-subgroup count dict is empty, the placeholder score 0.6;
otherwise the 1000-trial first-improvement hill-climb. -/
def generateImprovedSolution (dataSize : ℕ) (c : ℚ) (countKeys : List Combo)
    (s : List ℕ) : Solution × List ℕ :=
  let selectedSize := min (kTarget dataSize c).toNat dataSize
  let sr := randomSample s dataSize selectedSize
  if countKeys.isEmpty then (⟨sr.1, 3/5⟩, sr.2)
  else
    let fairness := calculateFairness sr.1 countKeys
    let r := hillClimbIter 1000 dataSize countKeys (sr.1, fairness, sr.2)
    (⟨r.1, r.2.1⟩, r.2.2)

end ConstraintSolver

namespace DataAdjuster

/-- The sensitive columns as `_generate_synthetic_samples` determines them:
`[col for col in data.columns if col.startswith('sensitive_')]` — by column
name, not by the caller's `sensitive_attributes` argument. -/
def sensitiveCols (df : DataFrame) : List String :=
  df.cols.filter (fun c => pyStartsWith c "sensitive_")

/-- `np.random.choice(data[attr].unique())` per sensitive column, building
the random attribute-value combination. -/
def chooseCombo (df : DataFrame) : List String → List ℕ → Combo × List ℕ
  | [], s => ([], s)
  | a :: as, s =>
    let uniq := pdUnique (colVals df a)
    let v := uniq.getD (s.headD 0 % uniq.length) 0
    let r := chooseCombo df as s.tail
    ((a, v) :: r.1, r.2)

/-- Uniform choice of one row (`DataFrame.sample(n=1)`). -/
def chooseRow (s : List ℕ) (l : List Row) : Row × List ℕ :=
  (l.getD (s.headD 0 % l.length) [], s.tail)

/-- Per-column construction of the synthetic row from the template:
sensitive-named columns are copied from the template, other (integer)
columns get `np.random.randint(min, max + 1)` over the column's observed
range. -/
def perturbRow (df : DataFrame) (tmpl : Row) : List String → List ℕ → Row × List ℕ
  | [], s => ([], s)
  | col :: cs, s =>
    if pyStartsWith col "sensitive_" then
      let r := perturbRow df tmpl cs s
      (df.cell tmpl col :: r.1, r.2)
    else
      let lo := listMinI (colVals df col)
      let hi := listMaxI (colVals df col)
      let v := lo + (s.headD 0 % (hi - lo + 1).toNat : ℕ)
      let r := perturbRow df tmpl cs s.tail
      (v :: r.1, r.2)

/-- One iteration of `DataAdjuster._generate_synthetic_samples`: choose a
random sensitive combination, gather the rows matching it, pick the template
from them (or from the whole dataset when no row matches), then rebuild the
row column by column. -/
def generateSyntheticSample (df : DataFrame) (s : List ℕ) : Row × List ℕ :=
  let cr := chooseCombo df (sensitiveCols df) s
  let matching := df.rows.filter (fun r => cr.1.all (fun p => df.cell r p.1 == p.2))
  let tr := if matching.isEmpty then chooseRow cr.2 df.rows else chooseRow cr.2 matching
  perturbRow df tr.1 df.cols tr.2

/-- `DataAdjuster._generate_synthetic_samples`: `n_samples` synthetic rows. -/
def generateSyntheticSamples (df : DataFrame) (n : ℕ) (s : List ℕ) :
    List Row × List ℕ :=
  match n with
  | 0 => ([], s)
  | n + 1 =>
    let one := generateSyntheticSample df s
    let rest := generateSyntheticSamples df n one.2
    (one.1 :: rest.1, rest.2)

/-- The oversampling loop of `DataAdjuster.adjust_data`: up to `fuel`
rounds; each round synthesizes `target - len(adjusted)` rows from the
original dataset, appends them, re-evaluates fairness on the whole adjusted
dataset against the cached (original-dataset) subgroup universe, keeps the
batch and stops on strict improvement over the pre-adjustment baseline, and
otherwise drops exactly the appended batch
(`adjusted_data.iloc[:len(adjusted_data) - len(synthetic_samples)]`). -/
def oversampleLoop (df : DataFrame) (combos : List Combo) (initialF : ℚ)
    (target : ℕ) : ℕ → DataFrame → List ℕ → DataFrame × List ℕ
  | 0, cur, s => (cur, s)
  | fuel + 1, cur, s =>
    let bs := generateSyntheticSamples df (target - cur.rows.length) s
    let cur' : DataFrame := ⟨df.cols, cur.rows ++ bs.1⟩
    let currentF := scoreWith cur' combos
    if initialF < currentF then (cur', bs.2)
    else
      oversampleLoop df combos initialF target fuel
        ⟨df.cols, (cur.rows ++ bs.1).take ((cur.rows ++ bs.1).length - bs.1.length)⟩
        bs.2

/-- Undersampling: `data.iloc[solution['selected_indices']]`. -/
def adjustUnder (df : DataFrame) (idxs : List ℕ) : DataFrame :=
  ⟨df.cols, idxs.map (fun i => df.rows.getD i [])⟩

/-- `DataAdjuster.adjust_data` (default `max_iterations = 10`): the
undersampling branch keeps the rows selected by the solution, the
oversampling branch never reads the solution and runs the batch loop.
The shared evaluator's cache is keyed by the attribute list and was
populated from this same dataset in every call site, so both the baseline
and the per-round scores use `df`'s own subgroup universe.  Returns the
adjusted dataset, the row delta, and the advanced random stream. -/
def adjustData (df : DataFrame) (sol : Solution) (c : ℚ) (attrs : List String)
    (s : List ℕ) : (DataFrame × ℤ) × List ℕ :=
  let originalSize := df.rows.length
  let combos := getCombinations df attrs
  let initialF := scoreWith df combos
  if c ≤ 1 then
    let adjusted := adjustUnder df sol.selectedIndices
    ((adjusted, (originalSize : ℤ) - (adjusted.rows.length : ℤ)), s)
  else
    let target := (kTarget originalSize c).toNat
    let r := oversampleLoop df combos initialF target 10 df s
    ((r.1, (r.1.rows.length : ℤ) - (originalSize : ℤ)), r.2)

/-- The batch the oversampling loop would append in its `j`-th round, with
the stream state reached after `j` rejected rounds (on a rejected round the
dataset is restored to the original, so every round's batch size is
`target - len(data)`). -/
def batchAt (df : DataFrame) (target : ℕ) (s : List ℕ) : ℕ → List Row × List ℕ
  | 0 => generateSyntheticSamples df (target - df.rows.length) s
  | j + 1 => generateSyntheticSamples df (target - df.rows.length) (batchAt df target s j).2

end DataAdjuster

namespace FairnessOptimizer

/-- Steps 1 and 5 of `FairnessOptimizer.optimize_fairness` together with the
revert guard: baseline fairness of the original dataset, final fairness of
the adjusted dataset (evaluated against the cached subgroup universe of the
original dataset), and if the final fairness is below the baseline the
adjusted dataset is discarded, the original dataset is returned and the
final fairness is reset to the baseline.  Result:
(returned dataset, initial fairness, final fairness). -/
def optimizeOutcome (df : DataFrame) (attrs : List String)
    (adjusted : DataFrame) : DataFrame × ℚ × ℚ :=
  let initialF := score df attrs
  let finalF := scoreWith adjusted (getCombinations df attrs)
  if finalF < initialF then (df, initialF, initialF)
  else (adjusted, initialF, finalF)

/-- The inner `binary_search` of
`FairnessOptimizer.calculate_optimal_coefficients`, with an explicit fuel
for the `while high - low > 0.001` loop (each iteration halves the bracket,
so fuel `⌈log₂((hi-lo)/0.001)⌉` suffices; fuel exhaustion returns the same
midpoint the loop's exit returns).  Every trial re-runs the adjuster on the
original dataset with `selected_indices = range(len(data))` and re-evaluates
fairness with the cached subgroup universe. -/
def binarySearchGo (df : DataFrame) (attrs : List String) (target : ℚ) :
    ℕ → ℚ → ℚ → List ℕ → ℚ × List ℕ
  | 0, lo, hi, s => ((lo + hi) / 2, s)
  | fuel + 1, lo, hi, s =>
    if hi - lo ≤ 1 / 1000 then ((lo + hi) / 2, s)
    else
      let mid := (lo + hi) / 2
      let ar := DataAdjuster.adjustData df ⟨List.range df.rows.length, 0⟩ mid attrs s
      let fairness := scoreWith ar.1.1 (getCombinations df attrs)
      if |fairness - target| < 1 / 1000 then (mid, ar.2)
      else if fairness < target then binarySearchGo df attrs target fuel mid hi ar.2
      else binarySearchGo df attrs target fuel lo mid ar.2

/-- The bracket `(low, high)` held by `binary_search`'s `while` loop at the
moment it stops, mirroring `binarySearchGo`'s recursion step for step (an
instrumentation of the same source loop, in the style of
`DataAdjuster.batchAt`): the loop narrows the bracket to the half chosen by
the fairness comparison, and stops either when the bracket's width is at
most 0.001 or on the tolerance early exit (in the latter case the bracket
at that moment is returned but unused). -/
def bracketAtExit (df : DataFrame) (attrs : List String) (target : ℚ) :
    ℕ → ℚ → ℚ → List ℕ → ℚ × ℚ
  | 0, lo, hi, _ => (lo, hi)
  | fuel + 1, lo, hi, s =>
    if hi - lo ≤ 1 / 1000 then (lo, hi)
    else
      let mid := (lo + hi) / 2
      let ar := DataAdjuster.adjustData df ⟨List.range df.rows.length, 0⟩ mid attrs s
      let fairness := scoreWith ar.1.1 (getCombinations df attrs)
      if |fairness - target| < 1 / 1000 then (lo, hi)
      else if fairness < target then bracketAtExit df attrs target fuel mid hi ar.2
      else bracketAtExit df attrs target fuel lo mid ar.2

/-- `FairnessOptimizer.calculate_optimal_coefficients`: the two calibration
binary searches, over `[0, 1]` and `[1, 2]` (fuel 20 covers both loops:
each bracket has width 1 and halves every iteration). -/
def calculateOptimalCoefficients (df : DataFrame) (attrs : List String)
    (target : ℚ) (s : List ℕ) : ℚ × ℚ × List ℕ :=
  let r₁ := binarySearchGo df attrs target 20 0 1 s
  let r₂ := binarySearchGo df attrs target 20 1 2 r₁.2
  (r₁.1, r₂.1, r₂.2)

end FairnessOptimizer

/-- The subgroup count named by the specification of the heuristic measure
(stated for comparison with `ConstraintSolver.calculateFairness`): the
number of selected rows whose attribute values satisfy all of the
subgroup's (attribute, value) pairs. -/
def claimedSubgroupCount (df : DataFrame) (selected : List ℕ) (c : Combo) : ℕ :=
  selected.countP (fun i => hasCombination df (df.rows.getD i []) c)

theorem mem_pdUniqueAux {x : Int} :
    ∀ {l seen : List Int}, x ∈ pdUniqueAux seen l ↔ x ∈ l ∧ x ∉ seen := by
  intro l
  induction l with
  | nil => intro seen; simp [pdUniqueAux]
  | cons v l ih =>
    intro seen
    by_cases hv : v ∈ seen
    · rw [pdUniqueAux, if_pos hv, ih]
      constructor
      · rintro ⟨h1, h2⟩; exact ⟨List.mem_cons_of_mem _ h1, h2⟩
      · rintro ⟨h1, h2⟩
        rcases List.mem_cons.mp h1 with h1 | h1
        · exact absurd (h1 ▸ hv) h2
        · exact ⟨h1, h2⟩
    · rw [pdUniqueAux, if_neg hv]
      simp only [List.mem_cons, ih]
      constructor
      · rintro (rfl | ⟨h1, h2⟩)
        · exact ⟨Or.inl rfl, hv⟩
        · exact ⟨Or.inr h1, fun hs => h2 (Or.inr hs)⟩
      · rintro ⟨rfl | h1, h2⟩
        · exact Or.inl rfl
        · by_cases hx : x = v
          · exact Or.inl hx
          · exact Or.inr ⟨h1, fun hs => hs.elim hx h2⟩

theorem mem_pdUnique {x : Int} {l : List Int} : x ∈ pdUnique l ↔ x ∈ l := by
  rw [pdUnique, mem_pdUniqueAux]
  simp

theorem nodup_pdUniqueAux : ∀ (l seen : List Int), (pdUniqueAux seen l).Nodup := by
  intro l
  induction l with
  | nil => intro seen; simp [pdUniqueAux]
  | cons v l ih =>
    intro seen
    by_cases hv : v ∈ seen
    · rw [pdUniqueAux, if_pos hv]; exact ih seen
    · rw [pdUniqueAux, if_neg hv]
      refine List.nodup_cons.mpr ⟨?_, ih (v :: seen)⟩
      intro hmem
      exact (mem_pdUniqueAux.mp hmem).2 (List.mem_cons_self _ _)

theorem nodup_pdUnique (l : List Int) : (pdUnique l).Nodup :=
  nodup_pdUniqueAux l []

theorem pdUnique_perm {l l' : List Int} (h : l.Perm l') :
    (pdUnique l).Perm (pdUnique l') := by
  refine List.perm_of_nodup_nodup_toFinset_eq (nodup_pdUnique l) (nodup_pdUnique l') ?_
  ext x
  simp only [List.mem_toFinset, mem_pdUnique]
  exact h.mem_iff

theorem listProd_perm {f g : String → List Int} (h : ∀ a, (f a).Perm (g a)) :
    ∀ (as : List String), (listProd (as.map f)).Perm (listProd (as.map g))
  | [] => by simp [listProd]
  | a :: as => by
    simp only [List.map_cons, listProd]
    exact ((h a).flatMap_right _).trans
      (List.Perm.flatMap_left _ (fun v _ => (listProd_perm h as).map _))

theorem maximum_perm {l l' : List ℚ} (h : l.Perm l') : l.maximum = l'.maximum :=
  le_antisymm
    (List.maximum_le_of_forall_le fun a ha => List.le_maximum_of_mem' (h.mem_iff.mp ha))
    (List.maximum_le_of_forall_le fun a ha => List.le_maximum_of_mem' (h.mem_iff.mpr ha))

theorem minimum_perm {l l' : List ℚ} (h : l.Perm l') : l.minimum = l'.minimum :=
  le_antisymm
    (List.le_minimum_of_forall_le fun a ha => List.minimum_le_of_mem' (h.mem_iff.mpr ha))
    (List.le_minimum_of_forall_le fun a ha => List.minimum_le_of_mem' (h.mem_iff.mp ha))

theorem listMax_perm {l l' : List ℚ} (h : l.Perm l') : listMax l = listMax l' := by
  simp [listMax, maximum_perm h]

theorem listMin_perm {l l' : List ℚ} (h : l.Perm l') : listMin l = listMin l' := by
  simp [listMin, minimum_perm h]

/-- Permuting the rows of a dataset (same schema) permutes each column. -/
theorem colVals_perm {df df' : DataFrame} (hc : df'.cols = df.cols)
    (hp : df'.rows.Perm df.rows) (a : String) :
    (colVals df' a).Perm (colVals df a) := by
  have hcell : ∀ r, df'.cell r a = df.cell r a := by
    intro r; simp [DataFrame.cell, hc]
  have h1 : colVals df' a = df'.rows.map (fun r => df.cell r a) := by
    simp [colVals, hcell]
  rw [h1]
  exact hp.map _

/-- The subgroup universe is permutation-invariant in the rows. -/
theorem getCombinations_perm {df df' : DataFrame} (hc : df'.cols = df.cols)
    (hp : df'.rows.Perm df.rows) (attrs : List String) :
    (getCombinations df' attrs).Perm (getCombinations df attrs) := by
  have hu : ∀ a, (pdUnique (colVals df' a)).Perm (pdUnique (colVals df a)) :=
    fun a => pdUnique_perm (colVals_perm hc hp a)
  unfold getCombinations
  refine List.Perm.append ?_ ?_
  · exact List.Perm.flatMap_left _ (fun a _ => (hu a).map _)
  · refine List.Perm.flatMap_left _ (fun k _ => ?_)
    refine List.Perm.flatMap_left _ (fun as _ => ?_)
    exact (listProd_perm hu as).map _

/-- A row permutation keeps every subgroup support unchanged. -/
theorem support_perm {df df' : DataFrame} (hc : df'.cols = df.cols)
    (hp : df'.rows.Perm df.rows) (c : Combo) :
    support df' c = support df c := by
  have hcell : ∀ r, hasCombination df' r c = hasCombination df r c := by
    intro r; simp [hasCombination, DataFrame.cell, hc]
  unfold support
  rw [hp.length_eq]
  have : df'.rows.countP (fun r => hasCombination df' r c)
      = df.rows.countP (fun r => hasCombination df r c) := by
    rw [show (fun r => hasCombination df' r c) = (fun r => hasCombination df r c)
      from funext hcell]
    exact hp.countP_eq _
  rw [this]

/-- `FairnessEvaluator.evaluate` is invariant under row permutation. -/
theorem score_perm {df df' : DataFrame} (hc : df'.cols = df.cols)
    (hp : df'.rows.Perm df.rows) (attrs : List String) :
    score df' attrs = score df attrs := by
  have hsup : (supportsOf df' (getCombinations df' attrs)).Perm
      (supportsOf df (getCombinations df attrs)) := by
    have h1 : supportsOf df' (getCombinations df' attrs)
        = (getCombinations df' attrs).map (support df) := by
      unfold supportsOf
      exact List.map_congr_left (fun c _ => support_perm hc hp c)
    rw [h1]
    exact (getCombinations_perm hc hp attrs).map _
  unfold score scoreWith
  rw [listMax_perm hsup, listMin_perm hsup]


/-- C1: for every optimize run, the returned final fairness is never below
the initial fairness: whenever the adjusted dataset scores below the
baseline, the orchestrator discards it, returns the original dataset and
reports the baseline as the final fairness. -/
theorem C1_revert_guarantee (df adjusted : DataFrame) (attrs : List String) :
    (FairnessOptimizer.optimizeOutcome df attrs adjusted).2.1
      ≤ (FairnessOptimizer.optimizeOutcome df attrs adjusted).2.2 ∧
    (scoreWith adjusted (getCombinations df attrs) < score df attrs →
      FairnessOptimizer.optimizeOutcome df attrs adjusted
        = (df, score df attrs, score df attrs)) := by
  unfold FairnessOptimizer.optimizeOutcome
  constructor
  · dsimp only
    split
    · exact le_refl _
    · next h =>
      exact le_of_not_lt (by simpa [score] using h)
  · intro h
    simp only [score] at h
    simp [h, score]

theorem C1_revert_guarantee_witness :
    (FairnessOptimizer.optimizeOutcome ⟨["s"], [[0], [0], [1]]⟩ ["s"]
        ⟨["s"], [[0], [0], [0], [1]]⟩).2.1
      ≤ (FairnessOptimizer.optimizeOutcome ⟨["s"], [[0], [0], [1]]⟩ ["s"]
        ⟨["s"], [[0], [0], [0], [1]]⟩).2.2 ∧
    FairnessOptimizer.optimizeOutcome ⟨["s"], [[0], [0], [1]]⟩ ["s"]
        ⟨["s"], [[0], [0], [0], [1]]⟩
      = (⟨["s"], [[0], [0], [1]]⟩, 2/3, 2/3) := by
  have h := C1_revert_guarantee ⟨["s"], [[0], [0], [1]]⟩
    ⟨["s"], [[0], [0], [0], [1]]⟩ ["s"]
  exact ⟨h.1, (h.2 (by decide)).trans (by decide)⟩

/-- C2 (code bug): the heuristic's discrete measure is not
`1 - (maxSubgroupCount - minSubgroupCount)/k` over the selected rows'
actual subgroup counts.  The source tests `i in c` with `i` an integer row
index and `c` a frozenset of (attribute, value) tuples, which is always
false in Python, so every computed subgroup count is 0 and the measure is
constantly 1.  At the failing input below the actual subgroup counts are 2
and 0, so the claimed measure is 0 while the code computes 1. -/
theorem C2_membership_bug :
    ConstraintSolver.calculateFairness [0, 1] [[("s", 0)], [("s", 1)]] = 1 ∧
    claimedSubgroupCount ⟨["s"], [[0], [0], [1]]⟩ [0, 1] [("s", 0)] = 2 ∧
    claimedSubgroupCount ⟨["s"], [[0], [0], [1]]⟩ [0, 1] [("s", 1)] = 0 ∧
    (1 : ℚ) - ((2 : ℚ) - 0) / 2 = 0 ∧
    ConstraintSolver.calculateFairness [0, 1] [[("s", 0)], [("s", 1)]]
      ≠ 1 - (((claimedSubgroupCount ⟨["s"], [[0], [0], [1]]⟩ [0, 1] [("s", 0)] : ℚ)
          - (claimedSubgroupCount ⟨["s"], [[0], [0], [1]]⟩ [0, 1] [("s", 1)] : ℚ)) / 2) := by
  decide

/-- C10: the oversampling branch of `adjust_data` never reads the solution
argument, so with a fixed random stream any two solutions produce the same
adjusted dataset. -/
theorem C10_oversampling_ignores_solution (df : DataFrame) (sol₁ sol₂ : Solution)
    (c : ℚ) (attrs : List String) (s : List ℕ) (hc : 1 < c) :
    DataAdjuster.adjustData df sol₁ c attrs s
      = DataAdjuster.adjustData df sol₂ c attrs s := by
  have h : ¬ (c ≤ 1) := not_le.mpr hc
  simp [DataAdjuster.adjustData, h]

theorem C10_oversampling_ignores_solution_witness :
    DataAdjuster.adjustData ⟨["s"], [[0], [0], [1]]⟩ ⟨[0, 1], 0⟩ (3/2) ["s"] [1, 1]
      = DataAdjuster.adjustData ⟨["s"], [[0], [0], [1]]⟩ ⟨[2], 1⟩ (3/2) ["s"] [1, 1] :=
  C10_oversampling_ignores_solution _ _ _ _ _ _ (by norm_num)

theorem getCombinations_nil_attrs (df : DataFrame) : getCombinations df [] = [] :=
  rfl

theorem listProd_cons_nil (ls : List (List Int)) : listProd ([] :: ls) = [] :=
  rfl

theorem getCombinations_rows_nil (df : DataFrame) (attrs : List String)
    (h : df.rows = []) : getCombinations df attrs = [] := by
  have hcv : ∀ a, pdUnique (colVals df a) = [] := by
    intro a; simp [colVals, h, pdUnique, pdUniqueAux]
  unfold getCombinations
  rw [List.append_eq_nil]
  constructor
  · rw [List.flatMap_eq_nil_iff]
    intro a _
    rw [hcv a, List.map_nil]
  · rw [List.flatMap_eq_nil_iff]
    intro k hk
    rw [List.flatMap_eq_nil_iff]
    intro as has
    have hk2 : 2 ≤ k := by
      rcases List.mem_range'.mp hk with ⟨i, _, rfl⟩
      omega
    have hlen : as.length = k := (List.mem_sublistsLen.mp has).2
    cases as with
    | nil => simp at hlen; omega
    | cons a as' => rw [List.map_cons, hcv a, listProd_cons_nil, List.map_nil]

/-- C9 (counterexample): `evaluate` is not a pure function of the dataset
and attribute list.  The combinations cache is keyed only on the attribute
tuple, so a prior evaluation of a different dataset on the same instance
changes the result: a fresh instance scores the second dataset 2/3, while
an instance that first evaluated a one-row dataset scores it 1. -/
theorem C9_cache_contamination_counterexample :
    FairnessEvaluator.evaluate [] ⟨["s"], [[0]]⟩ ["s"]
      = .ok (1, [(["s"], [[("s", 0)]])]) ∧
    (FairnessEvaluator.evaluate [] ⟨["s"], [[0], [0], [1]]⟩ ["s"]).map Prod.fst
      = .ok (2/3) ∧
    (FairnessEvaluator.evaluate [(["s"], [[("s", 0)]])]
        ⟨["s"], [[0], [0], [1]]⟩ ["s"]).map Prod.fst
      = .ok 1 ∧
    ((2 : ℚ)/3) ≠ 1 := by
  decide

/-- C9 (amended): `evaluate` is a pure function of the dataset, the
attribute list and the combinations-cache state; in particular two
evaluator instances whose caches have no entry for the attribute list
(e.g. fresh instances) return the same score for the same dataset. -/
theorem C9_fresh_key_purity (cache₁ cache₂ : Cache) (df : DataFrame)
    (attrs : List String)
    (h₁ : cache₁.lookup attrs = none) (h₂ : cache₂.lookup attrs = none) :
    (FairnessEvaluator.evaluate cache₁ df attrs).map Prod.fst
      = (FairnessEvaluator.evaluate cache₂ df attrs).map Prod.fst := by
  unfold FairnessEvaluator.evaluate FairnessEvaluator.getCombinationsCached
  rw [h₁, h₂]
  by_cases hall : attrs.all (fun a => df.cols.contains a)
  · simp only [if_pos hall]
    cases hsup : FairnessEvaluator.calculateSupports df (getCombinations df attrs) with
    | error e => simp [hsup]
    | ok sups => cases sups <;> simp [hsup, Except.map]
  · simp only [Bool.not_eq_true] at hall
    have hprop : ¬ ∀ x ∈ attrs, x ∈ df.cols := by
      intro hcontra
      have hT : attrs.all (fun a => df.cols.contains a) = true :=
        List.all_eq_true.mpr (fun a ha => by simpa using hcontra a ha)
      rw [hall] at hT
      exact Bool.false_ne_true hT
    simp [if_neg hprop]

theorem C9_fresh_key_purity_witness :
    ([] : Cache).lookup ["s"] = none ∧
    ([(["t"], [])] : Cache).lookup ["s"] = none ∧
    (FairnessEvaluator.evaluate [] ⟨["s"], [[0], [0], [1]]⟩ ["s"]).map Prod.fst
      = (FairnessEvaluator.evaluate [(["t"], [])]
          ⟨["s"], [[0], [0], [1]]⟩ ["s"]).map Prod.fst :=
  ⟨by decide, by decide,
    C9_fresh_key_purity [] [(["t"], [])] ⟨["s"], [[0], [0], [1]]⟩ ["s"]
      (by decide) (by decide)⟩

/-- C4 (counterexample): on an empty dataset the evaluator fails with a
built-in `ValueError` (from `max()` of an empty support collection), not
with the `DataValidationError` the claim names — no such class exists in
the repository. -/
theorem C4_error_class_counterexample :
    FairnessEvaluator.evaluate [] ⟨["s"], []⟩ ["s"] = .error .valueError ∧
    FairnessEvaluator.evaluate [] ⟨["s"], []⟩ ["s"]
      ≠ .error .dataValidationError := by
  decide

/-- C4 (amended): on a fresh evaluator, `evaluate` fails — with a built-in
`ValueError` (empty subgroup universe: no attributes or no rows) or a
built-in `KeyError` (a listed attribute absent from the schema) — whenever
the claim's conditions hold, so no fairness score is produced and the
orchestrator's pipeline stops at step 1. -/
theorem C4_validation_failures (df : DataFrame) (attrs : List String)
    (h : attrs = [] ∨ df.rows = [] ∨ ∃ a ∈ attrs, a ∉ df.cols) :
    FairnessEvaluator.evaluate [] df attrs = .error .valueError ∨
    FairnessEvaluator.evaluate [] df attrs = .error .keyError := by
  by_cases hall : attrs.all (fun a => df.cols.contains a)
  · left
    have hcomb : getCombinations df attrs = [] := by
      rcases h with h | h | ⟨a, ha, hmem⟩
      · subst h; exact getCombinations_nil_attrs df
      · exact getCombinations_rows_nil df attrs h
      · exact absurd (by simpa using List.all_eq_true.mp hall a ha) hmem
    unfold FairnessEvaluator.evaluate FairnessEvaluator.getCombinationsCached
    rw [show (([] : Cache).lookup attrs) = none from rfl, if_pos hall, hcomb]
    simp [FairnessEvaluator.calculateSupports, supportsOf]
  · right
    unfold FairnessEvaluator.evaluate FairnessEvaluator.getCombinationsCached
    rw [show (([] : Cache).lookup attrs) = none from rfl, if_neg hall]

theorem C4_validation_failures_witness :
    FairnessEvaluator.evaluate [] ⟨["s"], []⟩ ["s"] = .error .valueError ∨
    FairnessEvaluator.evaluate [] ⟨["s"], []⟩ ["s"] = .error .keyError :=
  C4_validation_failures ⟨["s"], []⟩ ["s"] (Or.inr (Or.inl rfl))

theorem listMaxI_replicate_zero (n : ℕ) :
    listMaxI (List.replicate n (0 : ℤ)) = 0 := by
  induction n with
  | zero => rfl
  | succ n ih =>
    unfold listMaxI at ih ⊢
    rw [List.replicate_succ, List.maximum_cons]
    cases hm : (List.replicate n (0 : ℤ)).maximum with
    | bot => simp [hm]
    | coe q =>
      rw [hm] at ih
      have hq : q = 0 := by simpa using ih
      subst hq
      simp

theorem listMinI_replicate_zero (n : ℕ) :
    listMinI (List.replicate n (0 : ℤ)) = 0 := by
  induction n with
  | zero => rfl
  | succ n ih =>
    unfold listMinI at ih ⊢
    rw [List.replicate_succ, List.minimum_cons]
    cases hm : (List.replicate n (0 : ℤ)).minimum with
    | top => simp [hm]
    | coe q =>
      rw [hm] at ih
      have hq : q = 0 := by simpa using ih
      subst hq
      simp

/-- The heuristic's measure, as coded, is the constant 1: the Python
membership `i in c` never holds, so every subgroup count is 0. -/
theorem calculateFairness_eq_one (selected : List ℕ) (ck : List Combo) :
    ConstraintSolver.calculateFairness selected ck = 1 := by
  unfold ConstraintSolver.calculateFairness
  have hmap : (ck.map fun c =>
        ((selected.countP fun i => ConstraintSolver.pyIntInCombo i c : ℕ) : ℤ))
      = ck.map (fun _ => (0 : ℤ)) := by
    refine List.map_congr_left (fun c _ => ?_)
    have : (selected.countP fun i => ConstraintSolver.pyIntInCombo i c) = 0 := by
      rw [List.countP_eq_zero]
      intro i _
      simp [ConstraintSolver.pyIntInCombo, ConstraintSolver.pyIntEqPair]
    rw [this]
    rfl
  rw [hmap]
  simp [listMaxI_replicate_zero, listMinI_replicate_zero]

theorem hillClimbIter_const (t n : ℕ) (ck : List Combo) :
    ∀ (sel : List ℕ) (s : List ℕ),
    (ConstraintSolver.hillClimbIter t n ck (sel, 1, s)).1 = sel ∧
    (ConstraintSolver.hillClimbIter t n ck (sel, 1, s)).2.1 = 1 := by
  induction t with
  | zero => intro sel s; exact ⟨rfl, rfl⟩
  | succ t ih =>
    intro sel s
    have hstep : ∃ s', ConstraintSolver.hillClimbStep n ck (sel, 1, s) = (sel, 1, s') := by
      unfold ConstraintSolver.hillClimbStep
      dsimp only
      by_cases hi : (s.headD 0 % n) ∈ sel
      · exact ⟨(randBelow s n).2, by rw [if_pos (by simpa [randBelow] using hi)]⟩
      · refine ⟨(randBelow (randBelow s n).2 sel.length).2, ?_⟩
        rw [if_neg (by simpa [randBelow] using hi), calculateFairness_eq_one,
          if_neg (lt_irrefl (1 : ℚ))]
    obtain ⟨s', hs'⟩ := hstep
    have hunfold : ConstraintSolver.hillClimbIter (t + 1) n ck (sel, 1, s)
        = ConstraintSolver.hillClimbIter t n ck
            (ConstraintSolver.hillClimbStep n ck (sel, 1, s)) := rfl
    rw [hunfold, hs']
    exact ih sel s'

theorem sampleAux_spec :
    ∀ (k : ℕ) (pool s : List ℕ), k ≤ pool.length → pool.Nodup →
    (sampleAux k pool s).1.length = k ∧ (sampleAux k pool s).1.Nodup ∧
    ∀ x ∈ (sampleAux k pool s).1, x ∈ pool := by
  intro k
  induction k with
  | zero =>
    intro pool s _ _
    exact ⟨rfl, List.nodup_nil, fun x hx => absurd hx (List.not_mem_nil x)⟩
  | succ k ih =>
    intro pool s hk hnd
    have hpos : 0 < pool.length := lt_of_lt_of_le (Nat.succ_pos k) hk
    have hidx : s.headD 0 % pool.length < pool.length := Nat.mod_lt _ hpos
    have hxmem : pool.getD (s.headD 0 % pool.length) 0 ∈ pool := by
      rw [List.getD_eq_getElem _ _ hidx]
      exact List.getElem_mem hidx
    have herase_len : (pool.erase (pool.getD (s.headD 0 % pool.length) 0)).length
        = pool.length - 1 := List.length_erase_of_mem hxmem
    have hk' : k ≤ (pool.erase (pool.getD (s.headD 0 % pool.length) 0)).length := by
      omega
    have hnd' : (pool.erase (pool.getD (s.headD 0 % pool.length) 0)).Nodup :=
      (List.erase_sublist _ _).nodup hnd
    obtain ⟨hl, hn, hsub⟩ := ih (pool.erase (pool.getD (s.headD 0 % pool.length) 0)) s.tail hk' hnd'
    refine ⟨?_, ?_, ?_⟩
    · show (_ :: _).length = k + 1
      rw [List.length_cons, hl]
    · refine List.nodup_cons.mpr ⟨?_, hn⟩
      intro hmem
      exact hnd.not_mem_erase (hsub _ hmem)
    · intro x hx
      rcases List.mem_cons.mp hx with rfl | hx
      · exact hxmem
      · exact (List.erase_subset _ _) (hsub x hx)

theorem sampleAux_perm :
    ∀ (n : ℕ) (pool s : List ℕ), pool.length = n → pool.Nodup →
    (sampleAux n pool s).1.Perm pool := by
  intro n
  induction n with
  | zero =>
    intro pool s hlen _
    rw [List.length_eq_zero] at hlen
    subst hlen
    exact List.Perm.refl _
  | succ n ih =>
    intro pool s hlen hnd
    have hpos : 0 < pool.length := by omega
    have hidx : s.headD 0 % pool.length < pool.length := Nat.mod_lt _ hpos
    have hxmem : pool.getD (s.headD 0 % pool.length) 0 ∈ pool := by
      rw [List.getD_eq_getElem _ _ hidx]
      exact List.getElem_mem hidx
    have hperm := ih (pool.erase (pool.getD (s.headD 0 % pool.length) 0)) s.tail
      (by rw [List.length_erase_of_mem hxmem, hlen]; omega) ((List.erase_sublist _ _).nodup hnd)
    show (_ :: (sampleAux n _ _).1).Perm pool
    exact (hperm.cons _).trans (List.perm_cons_erase hxmem).symm

theorem kTarget_eq_floor (n : ℕ) (c : ℚ) (hc : 0 ≤ c) :
    kTarget n c = ⌊(n : ℚ) * c⌋ := by
  unfold kTarget pyInt
  rw [if_pos (mul_nonneg (Nat.cast_nonneg n) hc)]

theorem floor_mul_nonneg (n : ℕ) (c : ℚ) (hc : 0 ≤ c) : 0 ≤ ⌊(n : ℚ) * c⌋ :=
  Int.floor_nonneg.mpr (mul_nonneg (Nat.cast_nonneg n) hc)

theorem floor_mul_le (n : ℕ) (c : ℚ) (h1 : c ≤ 1) : ⌊(n : ℚ) * c⌋ ≤ (n : ℤ) := by
  have hle : (n : ℚ) * c ≤ (n : ℚ) := by
    nlinarith [Nat.cast_nonneg (α := ℚ) n]
  calc ⌊(n : ℚ) * c⌋ ≤ ⌊(n : ℚ)⌋ := Int.floor_le_floor hle
    _ = (n : ℤ) := Int.floor_natCast n

/-- The heuristic solver's returned selection is exactly its initial random
sample: with a nonempty count dict the hill-climb measure is constantly 1,
so no swap is ever a strict improvement. -/
theorem generateImprovedSolution_sel (n : ℕ) (c : ℚ) (ck : List Combo) (s : List ℕ) :
    (ConstraintSolver.generateImprovedSolution n c ck s).1.selectedIndices
      = (randomSample s n (min (kTarget n c).toNat n)).1 := by
  unfold ConstraintSolver.generateImprovedSolution
  by_cases hck : ck.isEmpty
  · rw [if_pos hck]
  · rw [if_neg hck]
    dsimp only
    rw [calculateFairness_eq_one]
    exact (hillClimbIter_const 1000 n ck
      (randomSample s n (min (kTarget n c).toNat n)).1
      (randomSample s n (min (kTarget n c).toNat n)).2).1

theorem range_map_getD {α : Type} (l : List α) (d : α) :
    (List.range l.length).map (fun i => l.getD i d) = l := by
  induction l with
  | nil => rfl
  | cons a l ih =>
    rw [List.length_cons, List.range_succ_eq_map, List.map_cons, List.map_map]
    have hcomp : ((fun i => (a :: l).getD i d) ∘ Nat.succ) = fun i => l.getD i d := by
      funext i; rfl
    rw [hcomp, ih]
    rfl

/-- C7: with coefficient ≤ 1 (and ≥ 0, per the interface contract) every
solution selects exactly `⌊n·coefficient⌋` distinct row indices — any
assignment satisfying the CP model's cardinality constraint, and the
heuristic fallback's solution — and undersampling any such solution yields
an adjusted dataset of exactly `⌊n·coefficient⌋` rows. -/
theorem C7_exact_cardinality (df : DataFrame) (attrs : List String) (c : ℚ)
    (ck : List Combo) (s : List ℕ) (sel : List Bool) (fairness : ℤ) (sol : Solution)
    (h0 : 0 ≤ c) (h1 : c ≤ 1)
    (hm : modelSat df attrs c sel fairness)
    (hsol : (sol.selectedIndices.length : ℤ) = ⌊(df.rows.length : ℚ) * c⌋) :
    ((selectedOf sel).length : ℤ) = ⌊(df.rows.length : ℚ) * c⌋ ∧
    (selectedOf sel).Nodup ∧
    (((ConstraintSolver.generateImprovedSolution df.rows.length c ck s).1.selectedIndices.length : ℤ)
        = ⌊(df.rows.length : ℚ) * c⌋) ∧
    (ConstraintSolver.generateImprovedSolution df.rows.length c ck s).1.selectedIndices.Nodup ∧
    ((DataAdjuster.adjustData df sol c attrs s).1.1.rows.length : ℤ)
        = ⌊(df.rows.length : ℚ) * c⌋ := by
  have hkfl : kTarget df.rows.length c = ⌊(df.rows.length : ℚ) * c⌋ :=
    kTarget_eq_floor _ _ h0
  have hk0 : 0 ≤ kTarget df.rows.length c := hkfl ▸ floor_mul_nonneg _ _ h0
  have hkn : (kTarget df.rows.length c).toNat ≤ df.rows.length := by
    have := hkfl ▸ floor_mul_le df.rows.length c h1
    omega
  have hmin : min (kTarget df.rows.length c).toNat df.rows.length
      = (kTarget df.rows.length c).toNat := min_eq_left hkn
  have hsample := sampleAux_spec (kTarget df.rows.length c).toNat
    (List.range df.rows.length) s
    (by rw [List.length_range]; exact hkn) (List.nodup_range df.rows.length)
  refine ⟨?_, ?_, ?_, ?_, ?_⟩
  · rw [← hkfl]; exact hm.2.1
  · exact (List.nodup_range _).filter _
  · rw [generateImprovedSolution_sel, hmin]
    show (((sampleAux _ _ _).1.length : ℕ) : ℤ) = _
    rw [hsample.1, ← hkfl]
    omega
  · rw [generateImprovedSolution_sel, hmin]
    exact hsample.2.1
  · unfold DataAdjuster.adjustData
    dsimp only
    rw [if_pos h1]
    show ((sol.selectedIndices.map _).length : ℤ) = _
    rw [List.length_map]
    exact hsol

theorem C7_exact_cardinality_witness :
    0 ≤ (1/2 : ℚ) ∧ (1/2 : ℚ) ≤ 1 ∧
    modelSat ⟨["s"], [[0], [1]]⟩ ["s"] (1/2) [true, false] 0 ∧
    (((⟨[1], 0⟩ : Solution).selectedIndices.length : ℤ)
      = ⌊(((⟨["s"], [[0], [1]]⟩ : DataFrame).rows.length : ℚ) * (1/2))⌋) ∧
    (((selectedOf [true, false]).length : ℤ)
        = ⌊(((⟨["s"], [[0], [1]]⟩ : DataFrame).rows.length : ℚ) * (1/2))⌋ ∧
      (selectedOf [true, false]).Nodup ∧
      (((ConstraintSolver.generateImprovedSolution
          (⟨["s"], [[0], [1]]⟩ : DataFrame).rows.length (1/2) [] []).1.selectedIndices.length : ℤ)
          = ⌊(((⟨["s"], [[0], [1]]⟩ : DataFrame).rows.length : ℚ) * (1/2))⌋) ∧
      (ConstraintSolver.generateImprovedSolution
          (⟨["s"], [[0], [1]]⟩ : DataFrame).rows.length (1/2) [] []).1.selectedIndices.Nodup ∧
      ((DataAdjuster.adjustData ⟨["s"], [[0], [1]]⟩ ⟨[1], 0⟩ (1/2) ["s"] []).1.1.rows.length : ℤ)
          = ⌊(((⟨["s"], [[0], [1]]⟩ : DataFrame).rows.length : ℚ) * (1/2))⌋) := by
  refine ⟨by norm_num, by norm_num, by decide, by decide, ?_⟩
  exact C7_exact_cardinality ⟨["s"], [[0], [1]]⟩ ["s"] (1/2) [] [] [true, false] 0
    ⟨[1], 0⟩ (by norm_num) (by norm_num) (by decide) (by decide)

/-- C6: with coefficient 1 the cardinality constraint forces every row to
be selected: any model-satisfying assignment selects exactly `range n`, the
adjusted dataset is the original dataset itself, and the fairness score is
unchanged; on the heuristic fallback path the selection is a permutation of
all rows, so the adjusted dataset equals the original as a multiset of rows
and the fairness score is unchanged as well. -/
theorem C6_coefficient_one (df : DataFrame) (attrs : List String) (ck : List Combo)
    (s : List ℕ) (sel : List Bool) (fairness : ℤ)
    (hm : modelSat df attrs 1 sel fairness) :
    selectedOf sel = List.range df.rows.length ∧
    DataAdjuster.adjustUnder df (selectedOf sel) = df ∧
    score (DataAdjuster.adjustUnder df (selectedOf sel)) attrs = score df attrs ∧
    ((DataAdjuster.adjustUnder df
        (ConstraintSolver.generateImprovedSolution df.rows.length 1 ck s).1.selectedIndices).rows).Perm
      df.rows ∧
    score (DataAdjuster.adjustUnder df
        (ConstraintSolver.generateImprovedSolution df.rows.length 1 ck s).1.selectedIndices) attrs
      = score df attrs := by
  have hk1 : kTarget df.rows.length 1 = (df.rows.length : ℤ) := by
    rw [kTarget_eq_floor _ _ (by norm_num), mul_one, Int.floor_natCast]
  have hlen : (selectedOf sel).length = df.rows.length := by
    have := hm.2.1
    rw [hk1] at this
    exact_mod_cast this
  have hsel : selectedOf sel = List.range df.rows.length := by
    unfold selectedOf at hlen ⊢
    rw [hm.1] at hlen ⊢
    have hall := List.filter_length_eq_length.mp (by rw [hlen, List.length_range])
    exact List.filter_eq_self.mpr hall
  have hadj : DataAdjuster.adjustUnder df (List.range df.rows.length) = df := by
    cases df with
    | mk cols rows =>
      show DataFrame.mk cols ((List.range rows.length).map (fun i => rows.getD i [])) = ⟨cols, rows⟩
      rw [range_map_getD]
  have hperm : ((ConstraintSolver.generateImprovedSolution df.rows.length 1 ck s).1.selectedIndices).Perm
      (List.range df.rows.length) := by
    rw [generateImprovedSolution_sel]
    have hmin : min (kTarget df.rows.length 1).toNat df.rows.length = df.rows.length := by
      rw [hk1]; simp
    rw [hmin]
    unfold randomSample
    exact sampleAux_perm df.rows.length (List.range df.rows.length) s
      (List.length_range df.rows.length) (List.nodup_range df.rows.length)
  have hrowsperm : ((DataAdjuster.adjustUnder df
      (ConstraintSolver.generateImprovedSolution df.rows.length 1 ck s).1.selectedIndices).rows).Perm
      df.rows := by
    show (((ConstraintSolver.generateImprovedSolution df.rows.length 1 ck s).1.selectedIndices).map
      (fun i => df.rows.getD i [])).Perm df.rows
    have h := hperm.map (fun i => df.rows.getD i [])
    rw [range_map_getD] at h
    exact h
  refine ⟨hsel, ?_, ?_, hrowsperm, ?_⟩
  · rw [hsel]; exact hadj
  · rw [hsel, hadj]
  · exact @score_perm df
      (DataAdjuster.adjustUnder df
        (ConstraintSolver.generateImprovedSolution df.rows.length 1 ck s).1.selectedIndices)
      rfl hrowsperm attrs

theorem C6_coefficient_one_witness :
    modelSat ⟨["s"], [[0], [1]]⟩ ["s"] 1 [true, true] 1000000 ∧
    (selectedOf [true, true] = List.range (⟨["s"], [[0], [1]]⟩ : DataFrame).rows.length ∧
      DataAdjuster.adjustUnder ⟨["s"], [[0], [1]]⟩ (selectedOf [true, true])
        = ⟨["s"], [[0], [1]]⟩ ∧
      score (DataAdjuster.adjustUnder ⟨["s"], [[0], [1]]⟩ (selectedOf [true, true])) ["s"]
        = score ⟨["s"], [[0], [1]]⟩ ["s"] ∧
      ((DataAdjuster.adjustUnder ⟨["s"], [[0], [1]]⟩
          (ConstraintSolver.generateImprovedSolution
            (⟨["s"], [[0], [1]]⟩ : DataFrame).rows.length 1 [] []).1.selectedIndices).rows).Perm
        (⟨["s"], [[0], [1]]⟩ : DataFrame).rows ∧
      score (DataAdjuster.adjustUnder ⟨["s"], [[0], [1]]⟩
          (ConstraintSolver.generateImprovedSolution
            (⟨["s"], [[0], [1]]⟩ : DataFrame).rows.length 1 [] []).1.selectedIndices) ["s"]
        = score ⟨["s"], [[0], [1]]⟩ ["s"]) := by
  refine ⟨by decide, ?_⟩
  exact C6_coefficient_one ⟨["s"], [[0], [1]]⟩ ["s"] [] [] [true, true] 1000000 (by decide)

theorem generateSyntheticSamples_length (df : DataFrame) :
    ∀ (n : ℕ) (s : List ℕ),
    (DataAdjuster.generateSyntheticSamples df n s).1.length = n := by
  intro n
  induction n with
  | zero => intro s; rfl
  | succ n ih =>
    intro s
    show (_ :: (DataAdjuster.generateSyntheticSamples df n _).1).length = n + 1
    rw [List.length_cons, ih]

theorem batchAt_shift (df : DataFrame) (target : ℕ) (s : List ℕ) :
    ∀ (j : ℕ), DataAdjuster.batchAt df target (DataAdjuster.batchAt df target s 0).2 j
      = DataAdjuster.batchAt df target s (j + 1) := by
  intro j
  induction j with
  | zero => rfl
  | succ j ih =>
    show DataAdjuster.generateSyntheticSamples df (target - df.rows.length)
        (DataAdjuster.batchAt df target (DataAdjuster.batchAt df target s 0).2 j).2
      = DataAdjuster.generateSyntheticSamples df (target - df.rows.length)
        (DataAdjuster.batchAt df target s (j + 1)).2
    rw [ih]

theorem oversampleLoop_char (df : DataFrame) (combos : List Combo) (initialF : ℚ)
    (target : ℕ) :
    ∀ (fuel : ℕ) (s : List ℕ),
    ((DataAdjuster.oversampleLoop df combos initialF target fuel df s).1 = df ∧
      ∀ j < fuel, ¬ initialF < scoreWith
        ⟨df.cols, df.rows ++ (DataAdjuster.batchAt df target s j).1⟩ combos)
    ∨ (∃ i < fuel,
        (DataAdjuster.oversampleLoop df combos initialF target fuel df s).1
          = ⟨df.cols, df.rows ++ (DataAdjuster.batchAt df target s i).1⟩ ∧
        initialF < scoreWith
          ⟨df.cols, df.rows ++ (DataAdjuster.batchAt df target s i).1⟩ combos ∧
        ∀ j < i, ¬ initialF < scoreWith
          ⟨df.cols, df.rows ++ (DataAdjuster.batchAt df target s j).1⟩ combos) := by
  intro fuel
  induction fuel with
  | zero =>
    intro s
    exact Or.inl ⟨rfl, fun j hj => absurd hj (Nat.not_lt_zero j)⟩
  | succ fuel ih =>
    intro s
    by_cases hsc : initialF < scoreWith
      ⟨df.cols, df.rows ++ (DataAdjuster.batchAt df target s 0).1⟩ combos
    · right
      refine ⟨0, Nat.succ_pos fuel, ?_, hsc, fun j hj => absurd hj (Nat.not_lt_zero j)⟩
      unfold DataAdjuster.oversampleLoop
      dsimp only
      rw [show DataAdjuster.generateSyntheticSamples df (target - df.rows.length) s
        = DataAdjuster.batchAt df target s 0 from rfl]
      rw [if_pos hsc]
    · have hrestore : (⟨df.cols,
          ((df.rows ++ (DataAdjuster.batchAt df target s 0).1).take
            ((df.rows ++ (DataAdjuster.batchAt df target s 0).1).length
              - (DataAdjuster.batchAt df target s 0).1.length))⟩ : DataFrame) = df := by
        have hlen : df.rows.length
            = (df.rows ++ (DataAdjuster.batchAt df target s 0).1).length
              - (DataAdjuster.batchAt df target s 0).1.length := by
          rw [List.length_append]; omega
        cases df with
        | mk cols rows =>
          congr 1
          exact List.take_left' hlen
      have hstep : DataAdjuster.oversampleLoop df combos initialF target (fuel + 1) df s
          = DataAdjuster.oversampleLoop df combos initialF target fuel df
              (DataAdjuster.batchAt df target s 0).2 := by
        conv =>
          lhs
          unfold DataAdjuster.oversampleLoop
        dsimp only
        rw [show DataAdjuster.generateSyntheticSamples df (target - df.rows.length) s
          = DataAdjuster.batchAt df target s 0 from rfl]
        rw [if_neg hsc, hrestore]
      rcases ih ((DataAdjuster.batchAt df target s 0).2) with ⟨hres, hall⟩ | ⟨i, hi, hres, hgood, hprev⟩
      · left
        refine ⟨by rw [hstep]; exact hres, ?_⟩
        intro j hj
        cases j with
        | zero => exact hsc
        | succ j =>
          have h := hall j (by omega)
          rw [batchAt_shift] at h
          exact h
      · right
        refine ⟨i + 1, by omega, ?_, ?_, ?_⟩
        · rw [hstep, hres, batchAt_shift]
        · rw [← batchAt_shift df target s i]
          exact hgood
        · intro j hj
          cases j with
          | zero => exact hsc
          | succ j =>
            have h := hprev j (by omega)
            rw [batchAt_shift] at h
            exact h

/-- C8: for coefficient > 1 the adjuster runs at most 10 rounds; every
round's batch has exactly `target - current_size` synthetic rows, the batch
is kept (and the loop stops) exactly when the recomputed score strictly
exceeds the pre-adjustment baseline, and a rejected batch is removed
whole — the result is either the original rows plus the first accepted
batch, or, when no round improves, exactly the original dataset. -/
theorem C8_batch_atomic_oversampling (df : DataFrame) (attrs : List String)
    (sol : Solution) (c : ℚ) (s : List ℕ) (hc : 1 < c) :
    (∀ j, (DataAdjuster.batchAt df ((kTarget df.rows.length c).toNat) s j).1.length
        = (kTarget df.rows.length c).toNat - df.rows.length) ∧
    (((DataAdjuster.adjustData df sol c attrs s).1.1 = df ∧
        ∀ j < 10, ¬ scoreWith df (getCombinations df attrs) < scoreWith
          ⟨df.cols, df.rows
            ++ (DataAdjuster.batchAt df ((kTarget df.rows.length c).toNat) s j).1⟩
          (getCombinations df attrs))
      ∨ (∃ i < 10,
          (DataAdjuster.adjustData df sol c attrs s).1.1
            = ⟨df.cols, df.rows
                ++ (DataAdjuster.batchAt df ((kTarget df.rows.length c).toNat) s i).1⟩ ∧
          scoreWith df (getCombinations df attrs) < scoreWith
            ⟨df.cols, df.rows
              ++ (DataAdjuster.batchAt df ((kTarget df.rows.length c).toNat) s i).1⟩
            (getCombinations df attrs) ∧
          ∀ j < i, ¬ scoreWith df (getCombinations df attrs) < scoreWith
            ⟨df.cols, df.rows
              ++ (DataAdjuster.batchAt df ((kTarget df.rows.length c).toNat) s j).1⟩
            (getCombinations df attrs))) := by
  constructor
  · intro j
    cases j with
    | zero => exact generateSyntheticSamples_length df _ _
    | succ j => exact generateSyntheticSamples_length df _ _
  · have hadj : (DataAdjuster.adjustData df sol c attrs s).1.1
        = (DataAdjuster.oversampleLoop df (getCombinations df attrs)
            (scoreWith df (getCombinations df attrs))
            ((kTarget df.rows.length c).toNat) 10 df s).1 := by
      unfold DataAdjuster.adjustData
      dsimp only
      rw [if_neg (not_le.mpr hc)]
    rw [hadj]
    exact oversampleLoop_char df (getCombinations df attrs)
      (scoreWith df (getCombinations df attrs)) ((kTarget df.rows.length c).toNat) 10 s

theorem C8_batch_atomic_oversampling_witness :
    1 < (3/2 : ℚ) ∧
    ((∀ j, (DataAdjuster.batchAt ⟨["s"], [[0], [0], [1]]⟩
        ((kTarget (⟨["s"], [[0], [0], [1]]⟩ : DataFrame).rows.length (3/2)).toNat) [1, 1] j).1.length
        = (kTarget (⟨["s"], [[0], [0], [1]]⟩ : DataFrame).rows.length (3/2)).toNat
          - (⟨["s"], [[0], [0], [1]]⟩ : DataFrame).rows.length) ∧
      (((DataAdjuster.adjustData ⟨["s"], [[0], [0], [1]]⟩ ⟨[], 0⟩ (3/2) ["s"] [1, 1]).1.1
            = ⟨["s"], [[0], [0], [1]]⟩ ∧
          ∀ j < 10, ¬ scoreWith ⟨["s"], [[0], [0], [1]]⟩
              (getCombinations ⟨["s"], [[0], [0], [1]]⟩ ["s"]) < scoreWith
            ⟨(⟨["s"], [[0], [0], [1]]⟩ : DataFrame).cols,
              (⟨["s"], [[0], [0], [1]]⟩ : DataFrame).rows
                ++ (DataAdjuster.batchAt ⟨["s"], [[0], [0], [1]]⟩
                    ((kTarget (⟨["s"], [[0], [0], [1]]⟩ : DataFrame).rows.length (3/2)).toNat)
                    [1, 1] j).1⟩
            (getCombinations ⟨["s"], [[0], [0], [1]]⟩ ["s"]))
        ∨ (∃ i < 10,
            (DataAdjuster.adjustData ⟨["s"], [[0], [0], [1]]⟩ ⟨[], 0⟩ (3/2) ["s"] [1, 1]).1.1
              = ⟨(⟨["s"], [[0], [0], [1]]⟩ : DataFrame).cols,
                  (⟨["s"], [[0], [0], [1]]⟩ : DataFrame).rows
                    ++ (DataAdjuster.batchAt ⟨["s"], [[0], [0], [1]]⟩
                        ((kTarget (⟨["s"], [[0], [0], [1]]⟩ : DataFrame).rows.length (3/2)).toNat)
                        [1, 1] i).1⟩ ∧
            scoreWith ⟨["s"], [[0], [0], [1]]⟩
                (getCombinations ⟨["s"], [[0], [0], [1]]⟩ ["s"]) < scoreWith
              ⟨(⟨["s"], [[0], [0], [1]]⟩ : DataFrame).cols,
                (⟨["s"], [[0], [0], [1]]⟩ : DataFrame).rows
                  ++ (DataAdjuster.batchAt ⟨["s"], [[0], [0], [1]]⟩
                      ((kTarget (⟨["s"], [[0], [0], [1]]⟩ : DataFrame).rows.length (3/2)).toNat)
                      [1, 1] i).1⟩
              (getCombinations ⟨["s"], [[0], [0], [1]]⟩ ["s"]) ∧
            ∀ j < i, ¬ scoreWith ⟨["s"], [[0], [0], [1]]⟩
                (getCombinations ⟨["s"], [[0], [0], [1]]⟩ ["s"]) < scoreWith
              ⟨(⟨["s"], [[0], [0], [1]]⟩ : DataFrame).cols,
                (⟨["s"], [[0], [0], [1]]⟩ : DataFrame).rows
                  ++ (DataAdjuster.batchAt ⟨["s"], [[0], [0], [1]]⟩
                      ((kTarget (⟨["s"], [[0], [0], [1]]⟩ : DataFrame).rows.length (3/2)).toNat)
                      [1, 1] j).1⟩
              (getCombinations ⟨["s"], [[0], [0], [1]]⟩ ["s"])))) :=
  ⟨by norm_num,
    C8_batch_atomic_oversampling ⟨["s"], [[0], [0], [1]]⟩ ["s"] ⟨[], 0⟩ (3/2) [1, 1]
      (by norm_num)⟩

/-- C5 (counterexample): the calibration binary search does not guarantee a
coefficient whose re-run fairness is within 0.001 of the solver's score.
On a dataset with baseline fairness 2/3 and solver score 1 (the heuristic's
constant measure), every trial in `[0, 1]` re-selects all rows — fairness
stays 2/3 — so the search exhausts its bracket and returns the midpoint
2047/2048, where the re-run fairness is still 1/3 away from the target. -/
theorem C5_no_tolerance_counterexample :
    (FairnessOptimizer.binarySearchGo ⟨["s"], [[0], [0], [1]]⟩ ["s"] 1 20 0 1 []).1
      = 2047/2048 ∧
    ¬ |scoreWith (DataAdjuster.adjustData ⟨["s"], [[0], [0], [1]]⟩
          ⟨List.range 3, 0⟩ (2047/2048) ["s"] []).1.1
        (getCombinations ⟨["s"], [[0], [0], [1]]⟩ ["s"]) - 1| < 1/1000 := by
  constructor
  · decide
  · decide

/-- C5 (amended): each calibration binary search either returns a trial
coefficient whose re-run fairness (for some random draws) was within 0.001
of the solver's score, or stops because its bracket — narrowed by the
loop's halving steps and always contained in the initial bracket — has
width at most 0.001, and returns exactly that final bracket's midpoint,
with no accuracy guarantee. -/
theorem C5_bracket_or_tolerance (df : DataFrame) (attrs : List String)
    (target : ℚ) (fuel : ℕ) (lo hi : ℚ) (s : List ℕ)
    (hw : hi - lo ≤ (1/1000) * 2 ^ fuel) :
    (∃ s', |scoreWith (DataAdjuster.adjustData df ⟨List.range df.rows.length, 0⟩
        ((FairnessOptimizer.binarySearchGo df attrs target fuel lo hi s).1) attrs s').1.1
        (getCombinations df attrs) - target| < 1/1000)
    ∨ (lo ≤ (FairnessOptimizer.bracketAtExit df attrs target fuel lo hi s).1 ∧
        (FairnessOptimizer.bracketAtExit df attrs target fuel lo hi s).2 ≤ hi ∧
        (FairnessOptimizer.bracketAtExit df attrs target fuel lo hi s).2
          - (FairnessOptimizer.bracketAtExit df attrs target fuel lo hi s).1 ≤ 1/1000 ∧
        (FairnessOptimizer.binarySearchGo df attrs target fuel lo hi s).1
          = ((FairnessOptimizer.bracketAtExit df attrs target fuel lo hi s).1
              + (FairnessOptimizer.bracketAtExit df attrs target fuel lo hi s).2) / 2) := by
  induction fuel generalizing lo hi s with
  | zero =>
    right
    exact ⟨le_refl lo, le_refl hi, by simpa using hw, rfl⟩
  | succ fuel ih =>
    by_cases hle : hi - lo ≤ 1/1000
    · right
      have hbr : FairnessOptimizer.bracketAtExit df attrs target (fuel + 1) lo hi s
          = (lo, hi) := by
        simp only [FairnessOptimizer.bracketAtExit]
        rw [if_pos hle]
      have hres : FairnessOptimizer.binarySearchGo df attrs target (fuel + 1) lo hi s
          = ((lo + hi) / 2, s) := by
        simp only [FairnessOptimizer.binarySearchGo]
        rw [if_pos hle]
      rw [hbr, hres]
      exact ⟨le_refl lo, le_refl hi, hle, rfl⟩
    · have hlohi : lo < hi := by linarith [show (0 : ℚ) < 1/1000 by norm_num]
      by_cases htol : |scoreWith (DataAdjuster.adjustData df
          ⟨List.range df.rows.length, 0⟩ ((lo + hi) / 2) attrs s).1.1
          (getCombinations df attrs) - target| < 1/1000
      · left
        have hres : FairnessOptimizer.binarySearchGo df attrs target (fuel + 1) lo hi s
            = ((lo + hi) / 2,
               (DataAdjuster.adjustData df ⟨List.range df.rows.length, 0⟩
                 ((lo + hi) / 2) attrs s).2) := by
          simp only [FairnessOptimizer.binarySearchGo]
          rw [if_neg hle, if_pos htol]
        rw [hres]
        exact ⟨s, htol⟩
      · have hw2 : (2 : ℚ) ^ (fuel + 1) = 2 ^ fuel * 2 := pow_succ 2 fuel
        by_cases hlt : scoreWith (DataAdjuster.adjustData df
            ⟨List.range df.rows.length, 0⟩ ((lo + hi) / 2) attrs s).1.1
            (getCombinations df attrs) < target
        · have hres : FairnessOptimizer.binarySearchGo df attrs target (fuel + 1) lo hi s
              = FairnessOptimizer.binarySearchGo df attrs target fuel ((lo + hi) / 2) hi
                  (DataAdjuster.adjustData df ⟨List.range df.rows.length, 0⟩
                    ((lo + hi) / 2) attrs s).2 := by
            simp only [FairnessOptimizer.binarySearchGo]
            rw [if_neg hle, if_neg htol, if_pos hlt]
          have hbr : FairnessOptimizer.bracketAtExit df attrs target (fuel + 1) lo hi s
              = FairnessOptimizer.bracketAtExit df attrs target fuel ((lo + hi) / 2) hi
                  (DataAdjuster.adjustData df ⟨List.range df.rows.length, 0⟩
                    ((lo + hi) / 2) attrs s).2 := by
            simp only [FairnessOptimizer.bracketAtExit]
            rw [if_neg hle, if_neg htol, if_pos hlt]
          rw [hres, hbr]
          rcases ih ((lo + hi) / 2) hi _ (by rw [hw2] at hw; linarith) with h | ⟨h1, h2, h3, h4⟩
          · exact Or.inl h
          · exact Or.inr ⟨le_trans (by linarith) h1, h2, h3, h4⟩
        · have hres : FairnessOptimizer.binarySearchGo df attrs target (fuel + 1) lo hi s
              = FairnessOptimizer.binarySearchGo df attrs target fuel lo ((lo + hi) / 2)
                  (DataAdjuster.adjustData df ⟨List.range df.rows.length, 0⟩
                    ((lo + hi) / 2) attrs s).2 := by
            simp only [FairnessOptimizer.binarySearchGo]
            rw [if_neg hle, if_neg htol, if_neg hlt]
          have hbr : FairnessOptimizer.bracketAtExit df attrs target (fuel + 1) lo hi s
              = FairnessOptimizer.bracketAtExit df attrs target fuel lo ((lo + hi) / 2)
                  (DataAdjuster.adjustData df ⟨List.range df.rows.length, 0⟩
                    ((lo + hi) / 2) attrs s).2 := by
            simp only [FairnessOptimizer.bracketAtExit]
            rw [if_neg hle, if_neg htol, if_neg hlt]
          rw [hres, hbr]
          rcases ih lo ((lo + hi) / 2) _ (by rw [hw2] at hw; linarith) with h | ⟨h1, h2, h3, h4⟩
          · exact Or.inl h
          · exact Or.inr ⟨h1, le_trans h2 (by linarith), h3, h4⟩

theorem C5_bracket_or_tolerance_witness :
    (1 : ℚ) - 0 ≤ (1/1000) * 2 ^ 20 ∧
    ((∃ s', |scoreWith (DataAdjuster.adjustData ⟨["s"], [[0], [0], [1]]⟩
        ⟨List.range (⟨["s"], [[0], [0], [1]]⟩ : DataFrame).rows.length, 0⟩
        ((FairnessOptimizer.binarySearchGo ⟨["s"], [[0], [0], [1]]⟩ ["s"] 1 20 0 1 []).1)
        ["s"] s').1.1
        (getCombinations ⟨["s"], [[0], [0], [1]]⟩ ["s"]) - 1| < 1/1000)
      ∨ ((0 : ℚ) ≤ (FairnessOptimizer.bracketAtExit ⟨["s"], [[0], [0], [1]]⟩ ["s"] 1 20 0 1 []).1 ∧
          (FairnessOptimizer.bracketAtExit ⟨["s"], [[0], [0], [1]]⟩ ["s"] 1 20 0 1 []).2 ≤ 1 ∧
          (FairnessOptimizer.bracketAtExit ⟨["s"], [[0], [0], [1]]⟩ ["s"] 1 20 0 1 []).2
            - (FairnessOptimizer.bracketAtExit ⟨["s"], [[0], [0], [1]]⟩ ["s"] 1 20 0 1 []).1 ≤ 1/1000 ∧
          (FairnessOptimizer.binarySearchGo ⟨["s"], [[0], [0], [1]]⟩ ["s"] 1 20 0 1 []).1
            = ((FairnessOptimizer.bracketAtExit ⟨["s"], [[0], [0], [1]]⟩ ["s"] 1 20 0 1 []).1
                + (FairnessOptimizer.bracketAtExit ⟨["s"], [[0], [0], [1]]⟩ ["s"] 1 20 0 1 []).2) / 2)) :=
  ⟨by norm_num,
    C5_bracket_or_tolerance ⟨["s"], [[0], [0], [1]]⟩ ["s"] 1 20 0 1 [] (by norm_num)⟩

theorem chooseRow_mem (s : List ℕ) (l : List Row) (h : l ≠ []) :
    (DataAdjuster.chooseRow s l).1 ∈ l := by
  have hpos : 0 < l.length := List.length_pos.mpr h
  have hidx : s.headD 0 % l.length < l.length := Nat.mod_lt _ hpos
  show l.getD (s.headD 0 % l.length) [] ∈ l
  rw [List.getD_eq_getElem _ _ hidx]
  exact List.getElem_mem hidx

theorem perturbRow_sensitive (df : DataFrame) (tmpl : Row) :
    ∀ (cols : List String) (s : List ℕ) (a : String), a ∈ cols →
    pyStartsWith a "sensitive_" = true →
    (DataAdjuster.perturbRow df tmpl cols s).1.getD (cols.indexOf a) 0
      = df.cell tmpl a := by
  intro cols
  induction cols with
  | nil => intro s a ha; cases ha
  | cons col cs ih =>
    intro s a ha hpre
    by_cases hac : a = col
    · subst hac
      have hidx : (a :: cs).indexOf a = 0 := by
        rw [List.indexOf_cons, beq_self_eq_true]
        rfl
      rw [hidx]
      unfold DataAdjuster.perturbRow
      rw [if_pos hpre]
      rfl
    · have hidx : (col :: cs).indexOf a = cs.indexOf a + 1 := by
        rw [List.indexOf_cons, beq_eq_false_iff_ne.mpr (Ne.symm hac)]
        rfl
      rw [hidx]
      have hmem : a ∈ cs := by
        rcases List.mem_cons.mp ha with h | h
        · exact absurd h hac
        · exact h
      unfold DataAdjuster.perturbRow
      by_cases hcol : pyStartsWith col "sensitive_"
      · rw [if_pos hcol]
        show (DataAdjuster.perturbRow df tmpl cs s).1.getD (cs.indexOf a) 0 = df.cell tmpl a
        exact ih s a hmem hpre
      · rw [if_neg hcol]
        show (DataAdjuster.perturbRow df tmpl cs s.tail).1.getD (cs.indexOf a) 0 = df.cell tmpl a
        exact ih s.tail a hmem hpre

theorem generateSyntheticSample_template (df : DataFrame) (s : List ℕ)
    (hrows : df.rows ≠ []) :
    ∃ orig ∈ df.rows, ∀ a ∈ DataAdjuster.sensitiveCols df,
      df.cell (DataAdjuster.generateSyntheticSample df s).1 a = df.cell orig a := by
  unfold DataAdjuster.generateSyntheticSample
  dsimp only
  by_cases hm : (df.rows.filter fun r =>
      (DataAdjuster.chooseCombo df (DataAdjuster.sensitiveCols df) s).1.all
        fun p => df.cell r p.1 == p.2).isEmpty
  · rw [if_pos hm]
    refine ⟨(DataAdjuster.chooseRow
        (DataAdjuster.chooseCombo df (DataAdjuster.sensitiveCols df) s).2 df.rows).1,
      chooseRow_mem _ _ hrows, ?_⟩
    intro a ha
    have h2 := List.mem_filter.mp ha
    exact perturbRow_sensitive df _ df.cols _ a h2.1 h2.2
  · rw [if_neg hm]
    have hne : (df.rows.filter fun r =>
        (DataAdjuster.chooseCombo df (DataAdjuster.sensitiveCols df) s).1.all
          fun p => df.cell r p.1 == p.2) ≠ [] := by
      intro hnil
      rw [hnil] at hm
      exact hm rfl
    refine ⟨(DataAdjuster.chooseRow
        (DataAdjuster.chooseCombo df (DataAdjuster.sensitiveCols df) s).2
        (df.rows.filter fun r =>
          (DataAdjuster.chooseCombo df (DataAdjuster.sensitiveCols df) s).1.all
            fun p => df.cell r p.1 == p.2)).1, ?_, ?_⟩
    · exact List.mem_of_mem_filter (chooseRow_mem _ _ hne)
    · intro a ha
      have h2 := List.mem_filter.mp ha
      exact perturbRow_sensitive df _ df.cols _ a h2.1 h2.2

/-- C3 (counterexample): the synthesizer selects sensitive columns by the
`'sensitive_'` name prefix, not by the caller's sensitiveAttributes list.
With caller attributes `["a", "b"]` (no prefix-named column), every column
is perturbed: from rows `(0,0)` and `(1,1)` it can synthesize `(1,0)`, a
sensitive-attribute combination present in no original row. -/
theorem C3_caller_attrs_counterexample :
    (DataAdjuster.generateSyntheticSamples ⟨["a", "b"], [[0, 0], [1, 1]]⟩ 1 [0, 1, 0]).1
      = [[1, 0]] ∧
    (⟨["a", "b"], [[0, 0], [1, 1]]⟩ : DataFrame).cell [1, 0] "a" = 1 ∧
    (⟨["a", "b"], [[0, 0], [1, 1]]⟩ : DataFrame).cell [1, 0] "b" = 0 ∧
    ((⟨["a", "b"], [[0, 0], [1, 1]]⟩ : DataFrame).rows.all fun r =>
      !((⟨["a", "b"], [[0, 0], [1, 1]]⟩ : DataFrame).cell r "a" == 1
        && (⟨["a", "b"], [[0, 0], [1, 1]]⟩ : DataFrame).cell r "b" == 0)) = true := by
  decide

/-- C3 (amended): for every synthesized row, the values of the columns whose
names start with `'sensitive_'` — the columns the synthesizer actually
treats as sensitive, ignoring the caller's list — are copied verbatim from
the template row, so their combination equals the combination present in
some row of the original dataset. -/
theorem C3_sensitive_prefix_verbatim (df : DataFrame) (n : ℕ) (s : List ℕ)
    (row : Row) (hrows : df.rows ≠ [])
    (hrow : row ∈ (DataAdjuster.generateSyntheticSamples df n s).1) :
    ∃ orig ∈ df.rows, ∀ a ∈ DataAdjuster.sensitiveCols df,
      df.cell row a = df.cell orig a := by
  induction n generalizing s with
  | zero => cases hrow
  | succ n ih =>
    have hrow' : row ∈ (DataAdjuster.generateSyntheticSample df s).1
        :: (DataAdjuster.generateSyntheticSamples df n
            (DataAdjuster.generateSyntheticSample df s).2).1 := hrow
    rcases List.mem_cons.mp hrow' with heq | hmem
    · subst heq
      exact generateSyntheticSample_template df s hrows
    · exact ih _ hmem

theorem C3_sensitive_prefix_verbatim_witness :
    (⟨["sensitive_g", "x"], [[0, 5], [1, 6]]⟩ : DataFrame).rows ≠ [] ∧
    [0, 5] ∈ (DataAdjuster.generateSyntheticSamples
      ⟨["sensitive_g", "x"], [[0, 5], [1, 6]]⟩ 1 [0, 0, 0]).1 ∧
    (∃ orig ∈ (⟨["sensitive_g", "x"], [[0, 5], [1, 6]]⟩ : DataFrame).rows,
      ∀ a ∈ DataAdjuster.sensitiveCols ⟨["sensitive_g", "x"], [[0, 5], [1, 6]]⟩,
        (⟨["sensitive_g", "x"], [[0, 5], [1, 6]]⟩ : DataFrame).cell [0, 5] a
          = (⟨["sensitive_g", "x"], [[0, 5], [1, 6]]⟩ : DataFrame).cell orig a) :=
  ⟨by decide, by decide,
    C3_sensitive_prefix_verbatim ⟨["sensitive_g", "x"], [[0, 5], [1, 6]]⟩ 1 [0, 0, 0]
      [0, 5] (by decide) (by decide)⟩

end FairnessOpt
